import Mathlib

/-!
Verification of the BreatheEasy AQI backend against its specification.

The Python source is shallowly embedded: concentrations and coordinates are
exact rationals, machine integers are Lean integers, fallible operations
return Option, and the Django ORM / network layers are represented by
explicit state passing and oracle functions.
-/

namespace AQIBackend

/-! ## core/utils.py: EPA AQI calculation -/

/-- Round to the nearest integer with ties going to the even integer,
which is what CPython's builtin round does on exact values
(the source computes int(round(aqi))). -/
def pythonRound (q : ℚ) : ℤ :=
  let f : ℤ := ⌊q⌋
  let r : ℚ := q - f
  if r < 1 / 2 then f
  else if 1 / 2 < r then f + 1
  else if f % 2 = 0 then f else f + 1

/-- One EPA breakpoint row (c_low, c_high, aqi_low, aqi_high) from the
aqi_breakpoints tables in core/utils.py. -/
structure Band where
  cLow : ℚ
  cHigh : ℚ
  aqiLow : ℤ
  aqiHigh : ℤ
deriving DecidableEq

/-- The pm25 breakpoint table from calculate_epa_aqi. -/
def pm25Table : List Band :=
  [⟨0, 12, 0, 50⟩, ⟨12.1, 35.4, 51, 100⟩, ⟨35.5, 55.4, 101, 150⟩,
   ⟨55.5, 150.4, 151, 200⟩, ⟨150.5, 250.4, 201, 300⟩, ⟨250.5, 350.4, 301, 400⟩,
   ⟨350.5, 500.4, 401, 500⟩]

/-- The pm10 breakpoint table from calculate_epa_aqi. -/
def pm10Table : List Band :=
  [⟨0, 54, 0, 50⟩, ⟨55, 154, 51, 100⟩, ⟨155, 254, 101, 150⟩,
   ⟨255, 354, 151, 200⟩, ⟨355, 424, 201, 300⟩, ⟨425, 504, 301, 400⟩,
   ⟨505, 604, 401, 500⟩]

/-- The o3 breakpoint table from calculate_epa_aqi. -/
def o3Table : List Band :=
  [⟨0, 54, 0, 50⟩, ⟨55, 70, 51, 100⟩, ⟨71, 85, 101, 150⟩,
   ⟨86, 105, 151, 200⟩, ⟨106, 200, 201, 300⟩, ⟨201, 400, 301, 400⟩]

/-- The no2 breakpoint table from calculate_epa_aqi. -/
def no2Table : List Band :=
  [⟨0, 53, 0, 50⟩, ⟨54, 100, 51, 100⟩, ⟨101, 360, 101, 150⟩,
   ⟨361, 649, 151, 200⟩, ⟨650, 1249, 201, 300⟩, ⟨1250, 2049, 301, 400⟩]

/-- The so2 breakpoint table from calculate_epa_aqi. -/
def so2Table : List Band :=
  [⟨0, 35, 0, 50⟩, ⟨36, 75, 51, 100⟩, ⟨76, 185, 101, 150⟩,
   ⟨186, 304, 151, 200⟩, ⟨305, 604, 201, 300⟩, ⟨605, 1004, 301, 400⟩]

/-- The co breakpoint table from calculate_epa_aqi. -/
def coTable : List Band :=
  [⟨0, 4400, 0, 50⟩, ⟨4401, 9400, 51, 100⟩, ⟨9401, 12400, 101, 150⟩,
   ⟨12401, 15400, 151, 200⟩, ⟨15401, 30400, 201, 300⟩, ⟨30401, 50400, 301, 400⟩]

/-- ASCII lowercasing, modelling str.lower() as applied to the pollutant keys. -/
def asciiLower (s : String) : String := ⟨s.data.map Char.toLower⟩

/-- Lookup into the aqi_breakpoints dict of calculate_epa_aqi. -/
def aqiBreakpoints (p : String) : Option (List Band) :=
  if p = "pm25" then some pm25Table
  else if p = "pm10" then some pm10Table
  else if p = "o3" then some o3Table
  else if p = "no2" then some no2Table
  else if p = "so2" then some so2Table
  else if p = "co" then some coTable
  else none

/-- The loop of calculate_epa_aqi: return the first band whose closed
interval contains the concentration. -/
def findBand : List Band → ℚ → Option Band
  | [], _ => none
  | b :: bs, c => if b.cLow ≤ c ∧ c ≤ b.cHigh then some b else findBand bs c

/-- The linear interpolation formula of calculate_epa_aqi:
aqi = ((aqi_high - aqi_low) / (c_high - c_low)) * (c - c_low) + aqi_low. -/
def interpolate (b : Band) (c : ℚ) : ℚ :=
  (((b.aqiHigh : ℚ) - (b.aqiLow : ℚ)) / (b.cHigh - b.cLow)) * (c - b.cLow) + (b.aqiLow : ℚ)

/-- breakpoints[-1][1]: the upper concentration bound of the last band. -/
def topHigh (bps : List Band) : ℚ := (bps.getLastD ⟨0, 0, 0, 0⟩).cHigh

/-- calculate_epa_aqi from core/utils.py: band search plus rounded linear
interpolation, falling back to 500 above the top of the table and to
None (absent) otherwise. -/
def calculate_epa_aqi (pollutant : String) (concentration : ℚ) : Option ℤ :=
  match aqiBreakpoints (asciiLower pollutant) with
  | none => none
  | some bps =>
    match findBand bps concentration with
    | some b => some (pythonRound (interpolate b concentration))
    | none => if topHigh bps < concentration then (500 : ℤ) else none

/-- Well-formedness facts of a concrete breakpoint table, used to reason
about the band search: bands are nonempty intervals with nonnegative lower
bounds, bounded by the top of the table, and strictly ordered. -/
def bandsWF (bps : List Band) : Prop :=
  (∀ b ∈ bps, b.cLow ≤ b.cHigh) ∧ (∀ b ∈ bps, 0 ≤ b.cLow) ∧
  (∀ b ∈ bps, b.cHigh ≤ topHigh bps) ∧ 0 ≤ topHigh bps ∧
  List.Chain' (fun b1 b2 => b1.cHigh < b2.cLow) bps

/-! ## aqi/services.py: adaptive request throttling -/

/-- The throttle fields of OpenMeteoAQIService: the adaptive interval
_min_request_interval, the configured baseline min_interval, and the cap
_max_request_interval (2.0 in the source). Times are rational seconds. -/
structure ThrottleState where
  minRequestInterval : ℚ
  minInterval : ℚ
  maxRequestInterval : ℚ

/-- OpenMeteoAQIService._adjust_throttle_interval: on increase (a 429),
multiply the interval by 1.5 capped at the max; on success, if the interval
is above the baseline, multiply by 0.95 floored at the baseline. -/
def adjust_throttle_interval (t : ThrottleState) (increase : Bool) : ThrottleState :=
  if increase then
    { t with minRequestInterval := min (t.minRequestInterval * 1.5) t.maxRequestInterval }
  else if t.minInterval < t.minRequestInterval then
    { t with minRequestInterval := max (t.minRequestInterval * 0.95) t.minInterval }
  else t

/-! ## accounts/models.py and accounts/views.py: password reset -/

/-- The password-reset fields of the User model, with time as rational
seconds since an arbitrary epoch. -/
structure UserState where
  password_reset_token : Option String
  password_reset_expires : Option ℚ
  password : String

/-- User.generate_password_reset_token: store the fresh token and an expiry
one hour (3600 seconds) from now. -/
def generate_password_reset_token (u : UserState) (tok : String) (now : ℚ) : UserState :=
  { u with password_reset_token := some tok,
           password_reset_expires := some (now + 3600) }

/-- User.is_password_reset_token_valid: false when either stored field is
falsy (absent, or an empty stored token), when the stored token differs
from the presented one, or when now is strictly past the expiry. -/
def is_password_reset_token_valid (u : UserState) (token : String) (now : ℚ) : Bool :=
  match u.password_reset_token, u.password_reset_expires with
  | some stored, some expires =>
    if stored = "" then false
    else if stored ≠ token then false
    else if expires < now then false
    else true
  | _, _ => false

/-- User.clear_password_reset_token: null out both token fields. -/
def clear_password_reset_token (u : UserState) : UserState :=
  { u with password_reset_token := none, password_reset_expires := none }

/-- An HTTP response as observed by the client: status code and detail
message. -/
structure HttpResponse where
  status : ℕ
  detail : String
deriving DecidableEq

/-- ResetPasswordView.post over a single-user store: the ORM get on
password_reset_token finds the user only when the stored token equals the
presented one; then the token is re-validated, the password set, and the
token fields cleared. -/
def resetPasswordView (u : UserState) (token new_password : String) (now : ℚ) :
    HttpResponse × UserState :=
  if u.password_reset_token = some token then
    if is_password_reset_token_valid u token now then
      (⟨200, "Password successfully reset."⟩,
        clear_password_reset_token { u with password := new_password })
    else (⟨400, "Invalid or expired password reset token."⟩, u)
  else (⟨400, "Invalid password reset token."⟩, u)

/-- The observable outcome of ForgotPasswordView.post: the HTTP response
plus the internal side effects (token generation and email dispatch) that
happen only on the matched branch. -/
structure ForgotPasswordOutcome where
  response : HttpResponse
  tokenGenerated : Bool
  emailSent : Bool
deriving DecidableEq

/-- ForgotPasswordView.post: both the matched branch and the
User.DoesNotExist branch return the same 200 response with the same
generic detail string. -/
def forgotPasswordView (emailExists : Bool) : ForgotPasswordOutcome :=
  if emailExists then
    ⟨⟨200, "If the email exists, a password reset email has been sent."⟩, true, true⟩
  else
    ⟨⟨200, "If the email exists, a password reset email has been sent."⟩, false, false⟩

/-! ## core/utils.py get_aqi_category and the truthiness guards of
aqi/services.py response formatting -/

/-- A category record returned by get_aqi_category. -/
structure AqiCategoryInfo where
  category : String
  color : String
  health_advice : String
deriving DecidableEq

/-- The fallback record used when no AQI value is available. -/
def unknownAqiInfo : AqiCategoryInfo :=
  ⟨"Unknown", "#808080", "Unable to determine air quality."⟩

/-- get_aqi_category from core/utils.py: None gives the Unknown record,
otherwise the value is bucketed by the EPA thresholds. -/
def get_aqi_category : Option ℤ → AqiCategoryInfo
  | none => unknownAqiInfo
  | some aqi =>
    if aqi ≤ 50 then
      ⟨"Good", "#00E400",
        "Air quality is satisfactory, and air pollution poses little or no risk."⟩
    else if aqi ≤ 100 then
      ⟨"Moderate", "#FFFF00",
        "Air quality is acceptable. However, there may be a risk for some people, particularly those who are unusually sensitive to air pollution."⟩
    else if aqi ≤ 150 then
      ⟨"Unhealthy for Sensitive Groups", "#FF7E00",
        "Members of sensitive groups may experience health effects. The general public is less likely to be affected."⟩
    else if aqi ≤ 200 then
      ⟨"Unhealthy", "#FF0000",
        "Some members of the general public may experience health effects; members of sensitive groups may experience more serious health effects."⟩
    else if aqi ≤ 300 then
      ⟨"Very Unhealthy", "#8F3F97",
        "Health alert: The risk of health effects is increased for everyone."⟩
    else
      ⟨"Hazardous", "#7E0023",
        "Health warning of emergency conditions: everyone is more likely to be affected."⟩

/-- Python truthiness of an optional numeric AQI value: None and 0 are
falsy, everything else truthy. -/
def truthyAqi : Option ℤ → Bool
  | none => false
  | some v => decide (v ≠ 0)

/-- The category assignment of _format_current_response:
aqi_info = get_aqi_category(aqi_value) if aqi_value else the Unknown
record, guarded by truthiness. -/
def format_current_aqi_info (aqi_value : Option ℤ) : AqiCategoryInfo :=
  if truthyAqi aqi_value then get_aqi_category aqi_value else unknownAqiInfo

/-- The per-pollutant category field built in _enhance_with_aqi_calculations:
get_aqi_category(x)["category"] if x else None. -/
def pollutantCategoryField (epa_aqi : Option ℤ) : Option String :=
  if truthyAqi epa_aqi then some (get_aqi_category epa_aqi).category else none

/-- The dominant-pollutant loop of _enhance_with_aqi_calculations: scan the
pollutant records, tracking the name and value of the largest truthy
epa_aqi strictly above the running max, which starts at 0. -/
def selectDominant (pollutants : List (String × Option ℤ)) : Option String × ℤ :=
  pollutants.foldl
    (fun acc p =>
      match p.2 with
      | some v => if v ≠ 0 ∧ acc.2 < v then (some p.1, v) else acc
      | none => acc)
    (none, 0)

/-- Dict lookup over the pollutants_data association list. -/
def alookupStr (k : String) : List (String × Option ℤ) → Option (Option ℤ)
  | [] => none
  | (k', v) :: rest => if k' = k then some v else alookupStr k rest

/-- overall_aqi of _enhance_with_aqi_calculations: the epa_aqi of the
dominant pollutant when one was selected, else None. -/
def enhanceOverallAqi (pollutants : List (String × Option ℤ)) : Option ℤ :=
  match (selectDominant pollutants).1 with
  | none => none
  | some name =>
    match alookupStr name pollutants with
    | some v => v
    | none => none

/-- aqi_info of _enhance_with_aqi_calculations: category lookup guarded by
the truthiness of overall_aqi. -/
def enhanceAqiInfo (overall : Option ℤ) : AqiCategoryInfo :=
  if truthyAqi overall then get_aqi_category overall else unknownAqiInfo

/-- The local_epa_aqi block of the enhanced payload: populated only when
overall_aqi is truthy, else null. -/
def enhanceLocalEpaAqiBlock (overall : Option ℤ) : Option (Option ℤ × AqiCategoryInfo) :=
  if truthyAqi overall then some (overall, enhanceAqiInfo overall) else none

/-- health_recommendations of _enhance_with_aqi_calculations: starts empty
and is filled only when overall_aqi is truthy. -/
def healthRecommendations (overall : Option ℤ) : List String :=
  if truthyAqi overall then
    match overall with
    | some v =>
      if v ≤ 50 then
        ["Air quality is good. Enjoy outdoor activities.",
         "No special precautions needed."]
      else if v ≤ 100 then
        ["Air quality is acceptable for most people.",
         "Sensitive individuals should consider reducing prolonged outdoor exertion."]
      else if v ≤ 150 then
        ["Sensitive groups should reduce outdoor activities.",
         "Children, elderly, and those with respiratory conditions should take extra care."]
      else if v ≤ 200 then
        ["Everyone should reduce prolonged outdoor exertion.",
         "Sensitive groups should avoid outdoor activities.",
         "Keep windows closed if possible."]
      else
        ["Avoid all outdoor activities.",
         "Stay indoors with windows closed.",
         "Use air purifiers if available.",
         "Consider wearing N95 masks if going outside is necessary."]
    | none => []
  else []

/-! ## aqi/waqi_service.py: build_worst_aqi_rankings (dedup, sort, rank) -/

/-- One station observation as assembled by build_worst_aqi_rankings after
its filters: the city name, the heuristically extracted country, and the
integer index int(round(aqi_value)). -/
structure Reading where
  city : String
  country : String
  aqi : ℤ
deriving DecidableEq

/-- The deduplication key: city_country lowercased. -/
def cityKey (r : Reading) : String := asciiLower (r.city ++ "_" ++ r.country)

/-- One step of the dedup loop over city_aqi_map: insert under the city
key, replacing an existing entry only when the new index is strictly
higher. The replaced key keeps its position, as a Python dict does. -/
def addReading (m : List (String × Reading)) (r : Reading) : List (String × Reading) :=
  match m with
  | [] => [(cityKey r, r)]
  | (k, old) :: rest =>
    if k = cityKey r then
      (if old.aqi < r.aqi then (k, r) else (k, old)) :: rest
    else (k, old) :: addReading rest r

/-- The city_aqi_map built by scanning all observations in order. -/
def cityAqiMap (readings : List Reading) : List (String × Reading) :=
  readings.foldl addReading []

/-- Python dict .get over the association list. -/
def alookupReading (k : String) : List (String × Reading) → Option Reading
  | [] => none
  | (k', v) :: rest => if k' = k then some v else alookupReading k rest

/-- list.sort(key=..., reverse=True): a stable sort placing higher indices
first, modelled by insertion sort on the descending relation. -/
def sortDesc (l : List Reading) : List Reading :=
  List.insertionSort (fun a b => b.aqi ≤ a.aqi) l

/-- enumerate(observations[:top_n], 1): attach ranks i, i+1, ... -/
def assignRanks : ℕ → List Reading → List (Reading × ℕ)
  | _, [] => []
  | i, r :: rs => (r, i) :: assignRanks (i + 1) rs

/-- build_worst_aqi_rankings restricted to its pure core: deduplicate by
city key keeping the worse index, sort by index descending, truncate to
top_n and attach ranks 1..N. -/
def build_worst_aqi_rankings (readings : List Reading) (top_n : ℕ) : List (Reading × ℕ) :=
  assignRanks 1 ((sortDesc ((cityAqiMap readings).map Prod.snd)).take top_n)

/-- Keys of the city map always equal the city key of their value. -/
def mapWF (m : List (String × Reading)) : Prop := ∀ p ∈ m, p.1 = cityKey p.2

/-! ## aqi/services.py fetch_batch_current_aqi and
aqi/tasks.py check_and_send_aqi_alerts

The provider is an oracle: env gives, for each coordinate, either none (the
request produced nothing usable for that location, a placeholder in
all_results) or some formatted result, itself carrying an optional aqi
field. chunkFail marks chunks whose whole request failed. The loop over
chunks of 20 is fuelled by the input length, which the recursion never
exceeds. -/

/-- The all_results accumulation loop of fetch_batch_current_aqi: per chunk
of 20, either one placeholder per location (failed chunk) or one
per-location formatted result from the provider. -/
def batchAllResults (env : ℚ × ℚ → Option (Option ℤ)) (chunkFail : ℕ → Bool) :
    ℕ → ℕ → List (ℚ × ℚ) → List (Option (Option ℤ))
  | 0, _, _ => []
  | _ + 1, _, [] => []
  | fuel + 1, i, loc :: rest =>
    (if chunkFail i then List.replicate ((loc :: rest).take 20).length none
     else ((loc :: rest).take 20).map env) ++
      batchAllResults env chunkFail fuel (i + 1) ((loc :: rest).drop 20)

/-- fetch_batch_current_aqi from aqi/services.py: accumulate one entry per
input location across chunks, then filter out the None placeholders and
return only the valid results. -/
def fetch_batch_current_aqi (env : ℚ × ℚ → Option (Option ℤ)) (chunkFail : ℕ → Bool)
    (locations : List (ℚ × ℚ)) : List (Option ℤ) :=
  (batchAllResults env chunkFail locations.length 0 locations).filterMap id

/-- A CitySubscription joined with its owning user: the user id, the user
is_active flag, the subscription is_active flag, and the coordinate. -/
structure Subscription where
  userId : ℕ
  userIsActive : Bool
  isActive : Bool
  lat : ℚ
  lon : ℚ
deriving DecidableEq

/-- round(x, 4) in the grouping key of the sweep. -/
def round4 (q : ℚ) : ℚ := (pythonRound (q * 10000) : ℚ) / 10000

/-- The grouping key (round(lat, 4), round(lon, 4)). -/
def groupKey (s : Subscription) : ℚ × ℚ := (round4 s.lat, round4 s.lon)

/-- One step of the defaultdict grouping: append the subscription to its
coordinate group, creating the group at the end on first sight (Python
dicts preserve key insertion order). -/
def addToGroups (gs : List ((ℚ × ℚ) × List Subscription)) (s : Subscription) :
    List ((ℚ × ℚ) × List Subscription) :=
  match gs with
  | [] => [(groupKey s, [s])]
  | (k, ss) :: rest =>
    if k = groupKey s then (k, ss ++ [s]) :: rest
    else (k, ss) :: addToGroups rest s

/-- location_groups of check_and_send_aqi_alerts: active subscriptions of
active users grouped by rounded coordinate. -/
def buildLocationGroups (subs : List Subscription) : List ((ℚ × ℚ) × List Subscription) :=
  (subs.filter fun s => s.isActive).foldl
    (fun gs s => if s.userIsActive then addToGroups gs s else gs) []

/-- An AQINotification row: user, SavedLocation coordinate (the
get_or_create key being user plus exact latitude and longitude), the AQI
value at send time, and the calendar date. -/
structure Notification where
  user : ℕ
  lat : ℚ
  lon : ℚ
  aqiValue : ℤ
  date : ℕ
deriving DecidableEq

/-- A successfully sent alert email: recipient user, SavedLocation
coordinate, and the AQI value reported. -/
structure EmailEvent where
  user : ℕ
  lat : ℚ
  lon : ℚ
  aqiValue : ℤ
deriving DecidableEq

/-- The observable outcome of one sweep run: the emails sent, the
AQINotification table afterwards, and the failed send attempts. -/
structure SweepResult where
  emails : List EmailEvent
  ledger : List Notification
  failures : List EmailEvent
deriving DecidableEq

/-- The AQINotification.objects.filter(user, saved_location, date) check. -/
def notifMatches (n : Notification) (user : ℕ) (lat lon : ℚ) (date : ℕ) : Bool :=
  decide (n.user = user) && decide (n.lat = lat) &&
    decide (n.lon = lon) && decide (n.date = date)

/-- The per-(user, subscription) body of the sweep: skip when a
notification row for (user, location, today) already exists, otherwise
attempt the email and record a ledger row only on success. -/
def processPair (emailOk : ℕ → ℚ → ℚ → ℤ → Bool) (today : ℕ) (aqiValue : ℤ)
    (acc : SweepResult) (s : Subscription) : SweepResult :=
  if acc.ledger.any fun n => notifMatches n s.userId s.lat s.lon today then acc
  else if emailOk s.userId s.lat s.lon aqiValue then
    { acc with
      emails := acc.emails ++ [⟨s.userId, s.lat, s.lon, aqiValue⟩],
      ledger := acc.ledger ++ [⟨s.userId, s.lat, s.lon, aqiValue, today⟩] }
  else { acc with failures := acc.failures ++ [⟨s.userId, s.lat, s.lon, aqiValue⟩] }

/-- location_aqi_map.get over the coordinate-keyed association list. -/
def alookupQ (k : ℚ × ℚ) : List ((ℚ × ℚ) × Option ℤ) → Option (Option ℤ)
  | [] => none
  | (k', v) :: rest => if k' = k then some v else alookupQ k rest

/-- The per-coordinate body of the sweep: skip when the positional map has
no entry for the coordinate or the mapped aqi field is None or below the
threshold 100; otherwise process every (user, subscription) pair. -/
def processGroup (emailOk : ℕ → ℚ → ℚ → ℤ → Bool) (today : ℕ)
    (aqiMap : List ((ℚ × ℚ) × Option ℤ))
    (acc : SweepResult) (g : (ℚ × ℚ) × List Subscription) : SweepResult :=
  match alookupQ g.1 aqiMap with
  | none => acc
  | some aqiValueOpt =>
    match aqiValueOpt with
    | none => acc
    | some v => if v < 100 then acc else g.2.foldl (processPair emailOk today v) acc

/-- check_and_send_aqi_alerts from aqi/tasks.py: group, batch-fetch, build
the positional coordinate-to-result map by zipping the grouped coordinates
with the compacted batch output, then process every group against the
ledger. The early returns (no active subscriptions, no groups, empty batch
result) send nothing. -/
def check_and_send_aqi_alerts (subs : List Subscription)
    (env : ℚ × ℚ → Option (Option ℤ)) (chunkFail : ℕ → Bool)
    (emailOk : ℕ → ℚ → ℚ → ℤ → Bool) (today : ℕ)
    (ledger0 : List Notification) : SweepResult :=
  if (subs.filter fun s => s.isActive) = [] then ⟨[], ledger0, []⟩
  else
    let groups := buildLocationGroups subs
    if groups = [] then ⟨[], ledger0, []⟩
    else
      let uniqueLocations := groups.map Prod.fst
      let aqiResults := fetch_batch_current_aqi env chunkFail uniqueLocations
      if aqiResults = [] then ⟨[], ledger0, []⟩
      else
        let aqiMap := uniqueLocations.zip aqiResults
        groups.foldl (processGroup emailOk today aqiMap) ⟨[], ledger0, []⟩

/-- The (subscription, aqi value) pairs the sweep attempts to send for,
in order: ledger state never influences this list. -/
def groupAttempts (aqiMap : List ((ℚ × ℚ) × Option ℤ))
    (g : (ℚ × ℚ) × List Subscription) : List (Subscription × ℤ) :=
  match alookupQ g.1 aqiMap with
  | some (some v) => if v < 100 then [] else g.2.map fun s => (s, v)
  | _ => []

/-- The AQINotification row recorded for a successful email: same user,
location and value, on the given date. -/
def rowOf (today : ℕ) (e : EmailEvent) : Notification :=
  ⟨e.user, e.lat, e.lon, e.aqiValue, today⟩

/-- One sweep attempt as a fold step over (subscription, aqi value) pairs. -/
def sweepStep (emailOk : ℕ → ℚ → ℚ → ℤ → Bool) (today : ℕ)
    (acc : SweepResult) (p : Subscription × ℤ) : SweepResult :=
  processPair emailOk today p.2 acc p.1

/-- All attempts of a sweep run, in processing order. -/
def allAttempts (aqiMap : List ((ℚ × ℚ) × Option ℤ))
    (groups : List ((ℚ × ℚ) × List Subscription)) : List (Subscription × ℤ) :=
  (groups.map (groupAttempts aqiMap)).flatten

/-! Concrete fixtures used to exercise the batch fetch and the sweep. -/

/-- Three active subscriptions of three active users at coordinates (1,1),
(2,2) and (3,3). -/
def exSub1 : Subscription := ⟨1, true, true, 1, 1⟩

/-- See exSub1. -/
def exSub2 : Subscription := ⟨2, true, true, 2, 2⟩

/-- See exSub1. -/
def exSub3 : Subscription := ⟨3, true, true, 3, 3⟩

/-- A provider in which coordinate (1,*) yields nothing usable, (2,*)
yields a formatted result with AQI 45, and every other coordinate yields a
formatted result with AQI 150. -/
def exEnvMisaligned : ℚ × ℚ → Option (Option ℤ) := fun l =>
  if l.1 = 1 then none else if l.1 = 2 then some (some 45) else some (some 150)

/-- A provider returning AQI 155 everywhere. -/
def exEnv155 : ℚ × ℚ → Option (Option ℤ) := fun _ => some (some 155)

end AQIBackend

namespace AQIBackend

lemma pm25Table_wf : bandsWF pm25Table := by
  refine ⟨?_, ?_, ?_, ?_, ?_⟩ <;>
    norm_num [pm25Table, topHigh, List.forall_mem_cons, List.chain'_cons]

lemma pm10Table_wf : bandsWF pm10Table := by
  refine ⟨?_, ?_, ?_, ?_, ?_⟩ <;>
    norm_num [pm10Table, topHigh, List.forall_mem_cons, List.chain'_cons]

lemma o3Table_wf : bandsWF o3Table := by
  refine ⟨?_, ?_, ?_, ?_, ?_⟩ <;>
    norm_num [o3Table, topHigh, List.forall_mem_cons, List.chain'_cons]

lemma no2Table_wf : bandsWF no2Table := by
  refine ⟨?_, ?_, ?_, ?_, ?_⟩ <;>
    norm_num [no2Table, topHigh, List.forall_mem_cons, List.chain'_cons]

lemma so2Table_wf : bandsWF so2Table := by
  refine ⟨?_, ?_, ?_, ?_, ?_⟩ <;>
    norm_num [so2Table, topHigh, List.forall_mem_cons, List.chain'_cons]

lemma coTable_wf : bandsWF coTable := by
  refine ⟨?_, ?_, ?_, ?_, ?_⟩ <;>
    norm_num [coTable, topHigh, List.forall_mem_cons, List.chain'_cons]

lemma aqiBreakpoints_wf {s : String} {bps : List Band}
    (h : aqiBreakpoints s = some bps) : bandsWF bps := by
  unfold aqiBreakpoints at h
  split_ifs at h <;> cases h
  · exact pm25Table_wf
  · exact pm10Table_wf
  · exact o3Table_wf
  · exact no2Table_wf
  · exact so2Table_wf
  · exact coTable_wf

lemma findBand_cons (b : Band) (bs : List Band) (c : ℚ) :
    findBand (b :: bs) c = if b.cLow ≤ c ∧ c ≤ b.cHigh then some b else findBand bs c := rfl

lemma findBand_eq_none_of_high {bps : List Band} {c : ℚ}
    (h : ∀ b ∈ bps, b.cHigh < c) : findBand bps c = none := by
  induction bps with
  | nil => rfl
  | cons b bs ih =>
    have hb := h b (List.mem_cons_self b bs)
    rw [findBand_cons,
      if_neg (by rintro ⟨-, h2⟩; exact absurd (lt_of_lt_of_le hb h2) (lt_irrefl _))]
    exact ih fun x hx => h x (List.mem_cons_of_mem b hx)

lemma findBand_eq_none_of_low {bps : List Band} {c : ℚ}
    (h : ∀ b ∈ bps, c < b.cLow) : findBand bps c = none := by
  induction bps with
  | nil => rfl
  | cons b bs ih =>
    have hb := h b (List.mem_cons_self b bs)
    rw [findBand_cons,
      if_neg (by rintro ⟨h1, -⟩; exact absurd (lt_of_lt_of_le hb h1) (lt_irrefl _))]
    exact ih fun x hx => h x (List.mem_cons_of_mem b hx)

lemma chain_head_lt {a : Band} {l : List Band}
    (hle : ∀ b ∈ l, b.cLow ≤ b.cHigh)
    (hc : List.Chain' (fun b1 b2 => b1.cHigh < b2.cLow) (a :: l)) :
    ∀ x ∈ l, a.cHigh < x.cLow := by
  induction l generalizing a with
  | nil => intro x hx; cases hx
  | cons y l' ih =>
    intro x hx
    rw [List.chain'_cons] at hc
    rcases List.mem_cons.mp hx with rfl | hx'
    · exact hc.1
    · have hy : a.cHigh < y.cLow := hc.1
      have := ih (fun b hb => hle b (List.mem_cons_of_mem y hb)) hc.2 x hx'
      calc a.cHigh < y.cLow := hy
        _ ≤ y.cHigh := hle y (List.mem_cons_self y l')
        _ < x.cLow := this

lemma findBand_gap :
    ∀ (bps : List Band) (i : ℕ) (b1 b2 : Band) (c : ℚ),
    (∀ b ∈ bps, b.cLow ≤ b.cHigh) →
    List.Chain' (fun x y => x.cHigh < y.cLow) bps →
    bps.get? i = some b1 → bps.get? (i + 1) = some b2 →
    b1.cHigh < c → c < b2.cLow → findBand bps c = none := by
  intro bps
  induction bps with
  | nil => intro i b1 b2 c _ _ h1; cases h1
  | cons b bs ih =>
    intro i b1 b2 c hle hch h1 h2 hc1 hc2
    cases i with
    | zero =>
      cases h1
      cases bs with
      | nil => cases h2
      | cons y bs' =>
        have h2' : y = b2 := by cases h2; rfl
        subst h2'
        rw [findBand_cons,
          if_neg (by rintro ⟨-, hle2⟩; exact absurd (lt_of_lt_of_le hc1 hle2) (lt_irrefl _))]
        apply findBand_eq_none_of_low
        intro x hx
        rcases List.mem_cons.mp hx with rfl | hx'
        · exact hc2
        · have hlt := chain_head_lt
            (fun b hb => hle b (List.mem_cons_of_mem _ (List.mem_cons_of_mem _ hb)))
            ((List.chain'_cons.mp hch).2) x hx'
          calc c < y.cLow := hc2
            _ ≤ y.cHigh := hle y (by simp)
            _ < x.cLow := hlt
    | succ i' =>
      have hmem : b1 ∈ bs := List.get?_mem h1
      have hblt : b.cHigh < b1.cLow :=
        chain_head_lt (fun x hx => hle x (List.mem_cons_of_mem _ hx)) hch b1 hmem
      rw [findBand_cons, if_neg (by
        rintro ⟨-, hle2⟩
        have hbc : b.cHigh < c :=
          lt_of_le_of_lt (le_trans (le_of_lt hblt) (hle b1 (List.mem_cons_of_mem _ hmem))) hc1
        exact absurd (lt_of_lt_of_le hbc hle2) (lt_irrefl _))]
      exact ih i' b1 b2 c (fun x hx => hle x (List.mem_cons_of_mem _ hx))
        ((List.chain'_cons'.mp hch).2) h1 h2 hc1 hc2

lemma calc_above_top {p : String} {c : ℚ} {bps : List Band}
    (h : aqiBreakpoints (asciiLower p) = some bps)
    (htop : topHigh bps < c) : calculate_epa_aqi p c = some 500 := by
  have hwf := aqiBreakpoints_wf h
  have hnone : findBand bps c = none :=
    findBand_eq_none_of_high fun b hb => lt_of_le_of_lt (hwf.2.2.1 b hb) htop
  simp [calculate_epa_aqi, h, hnone, htop]

lemma calc_none_of_neg {p : String} {c : ℚ} {bps : List Band}
    (h : aqiBreakpoints (asciiLower p) = some bps)
    (hneg : c < 0) : calculate_epa_aqi p c = none := by
  have hwf := aqiBreakpoints_wf h
  have hnone : findBand bps c = none :=
    findBand_eq_none_of_low fun b hb => lt_of_lt_of_le hneg (hwf.2.1 b hb)
  have hnotop : ¬ topHigh bps < c := not_lt.mpr (le_trans (le_of_lt hneg) hwf.2.2.2.1)
  simp [calculate_epa_aqi, h, hnone, hnotop]

lemma calc_gap {p : String} {c : ℚ} {bps : List Band} {i : ℕ} {b1 b2 : Band}
    (h : aqiBreakpoints (asciiLower p) = some bps)
    (h1 : bps.get? i = some b1) (h2 : bps.get? (i + 1) = some b2)
    (hc1 : b1.cHigh < c) (hc2 : c < b2.cLow) : calculate_epa_aqi p c = none := by
  have hwf := aqiBreakpoints_wf h
  have hnone : findBand bps c = none :=
    findBand_gap bps i b1 b2 c hwf.1 hwf.2.2.2.2 h1 h2 hc1 hc2
  have hmem2 : b2 ∈ bps := List.get?_mem h2
  have hnotop : ¬ topHigh bps < c := by
    push_neg
    calc c ≤ b2.cLow := le_of_lt hc2
      _ ≤ b2.cHigh := hwf.1 b2 hmem2
      _ ≤ topHigh bps := hwf.2.2.1 b2 hmem2
  simp [calculate_epa_aqi, h, hnone, hnotop]

lemma pythonRound_nearest (q : ℚ) : |q - (pythonRound q : ℚ)| ≤ 1 / 2 := by
  have hfl : (⌊q⌋ : ℚ) ≤ q := Int.floor_le q
  have hfu : q < (⌊q⌋ : ℚ) + 1 := Int.lt_floor_add_one q
  simp only [pythonRound]
  split_ifs with h1 h2 h3 <;>
    · rw [abs_le]
      push_cast
      constructor <;> linarith

/-- C1: calculate_epa_aqi computes the pollutant sub-index by linear
interpolation within the breakpoint band containing the concentration,
rounded to nearest integer (ties to even, as CPython round); in particular
pm25 at 12.0 gives 50 and pm25 at 12.1 lies in [51,100]; every
concentration above the top of a pollutant's table gives 500 (with pm25 at
500.4 giving 500); every unrecognized pollutant key gives absent. -/
theorem C1_epa_aqi_interpolation :
    (∀ q : ℚ, |q - (pythonRound q : ℚ)| ≤ 1 / 2) ∧
    (∀ (p : String) (c : ℚ) (bps : List Band) (b : Band),
      aqiBreakpoints (asciiLower p) = some bps → findBand bps c = some b →
      calculate_epa_aqi p c = some (pythonRound (interpolate b c))) ∧
    calculate_epa_aqi "pm25" 12 = some 50 ∧
    (∃ n : ℤ, calculate_epa_aqi "pm25" 12.1 = some n ∧ 51 ≤ n ∧ n ≤ 100) ∧
    (∀ (p : String) (c : ℚ) (bps : List Band),
      aqiBreakpoints (asciiLower p) = some bps → topHigh bps < c →
      calculate_epa_aqi p c = some 500) ∧
    calculate_epa_aqi "pm25" 500.4 = some 500 ∧
    (∀ p : String, aqiBreakpoints (asciiLower p) = none →
      ∀ c : ℚ, calculate_epa_aqi p c = none) ∧
    calculate_epa_aqi "unknown" 10 = none := by
  refine ⟨pythonRound_nearest, ?_, ?_, ?_, ?_, ?_, ?_, ?_⟩
  · intro p c bps b h1 h2
    simp [calculate_epa_aqi, h1, h2]
  · norm_num [calculate_epa_aqi, show asciiLower "pm25" = "pm25" from by decide,
      aqiBreakpoints, pm25Table, findBand_cons, findBand, interpolate, pythonRound]
  · refine ⟨51, ?_, by norm_num, by norm_num⟩
    norm_num [calculate_epa_aqi, show asciiLower "pm25" = "pm25" from by decide,
      aqiBreakpoints, pm25Table, findBand_cons, findBand, interpolate, pythonRound]
  · intro p c bps h htop
    exact calc_above_top h htop
  · norm_num [calculate_epa_aqi, show asciiLower "pm25" = "pm25" from by decide,
      aqiBreakpoints, pm25Table, findBand_cons, findBand, interpolate, pythonRound]
  · intro p h c
    simp [calculate_epa_aqi, h]
  · simp [calculate_epa_aqi, show asciiLower "unknown" = "unknown" from by decide,
      aqiBreakpoints]

/-- Witness for C1 at concrete inputs: pm25 at 20 interpolates in the
second band, o3 at 1000 is above the top of the o3 table and gives 500,
and an unrecognized key gives absent. -/
theorem C1_epa_aqi_interpolation_witness :
    calculate_epa_aqi "pm25" 20 = some (pythonRound (interpolate ⟨12.1, 35.4, 51, 100⟩ 20)) ∧
    calculate_epa_aqi "o3" 1000 = some 500 ∧
    calculate_epa_aqi "xyz" 5 = none :=
  ⟨C1_epa_aqi_interpolation.2.1 "pm25" 20 pm25Table ⟨12.1, 35.4, 51, 100⟩ rfl
      (by norm_num [pm25Table, findBand_cons, findBand]),
   C1_epa_aqi_interpolation.2.2.2.2.1 "o3" 1000 o3Table rfl
      (by norm_num [topHigh, o3Table]),
   C1_epa_aqi_interpolation.2.2.2.2.2.2.1 "xyz" rfl 5⟩

/-- C9 (implicit): for recognized pollutants calculate_epa_aqi returns
absent for any negative concentration and for any concentration strictly
between two adjacent breakpoint bands (for pm25, anything strictly between
12.0 and 12.1), and outside every band the 500 fallback fires exactly for
concentrations strictly above the top band's upper bound. -/
theorem C9_epa_aqi_absent_outside_bands :
    (∀ (p : String) (c : ℚ) (bps : List Band),
      aqiBreakpoints (asciiLower p) = some bps → c < 0 →
      calculate_epa_aqi p c = none) ∧
    (∀ (p : String) (c : ℚ) (bps : List Band) (i : ℕ) (b1 b2 : Band),
      aqiBreakpoints (asciiLower p) = some bps →
      bps.get? i = some b1 → bps.get? (i + 1) = some b2 →
      b1.cHigh < c → c < b2.cLow → calculate_epa_aqi p c = none) ∧
    (∀ c : ℚ, 12 < c → c < 12.1 → calculate_epa_aqi "pm25" c = none) ∧
    (∀ (p : String) (c : ℚ) (bps : List Band),
      aqiBreakpoints (asciiLower p) = some bps → findBand bps c = none →
      (calculate_epa_aqi p c = some 500 ↔ topHigh bps < c)) := by
  refine ⟨?_, ?_, ?_, ?_⟩
  · intro p c bps h hneg
    exact calc_none_of_neg h hneg
  · intro p c bps i b1 b2 h h1 h2 hc1 hc2
    exact calc_gap h h1 h2 hc1 hc2
  · intro c h1 h2
    exact @calc_gap "pm25" c pm25Table 0 ⟨0, 12, 0, 50⟩ ⟨12.1, 35.4, 51, 100⟩ rfl rfl rfl
      (by simpa [pm25Table] using h1) (by simpa [pm25Table] using h2)
  · intro p c bps h hfind
    simp only [calculate_epa_aqi, h, hfind]
    split_ifs with ht <;> simp [ht]

/-- Witness for C9 at concrete inputs: pm25 at -1 is absent, pm10 at 54.5
falls in the gap between the first two pm10 bands and is absent, pm25 at
12.05 is absent, and so2 at 2000 (outside every band) gives 500 exactly
because 2000 is above the top of the so2 table. -/
theorem C9_epa_aqi_absent_outside_bands_witness :
    calculate_epa_aqi "pm25" (-1) = none ∧
    calculate_epa_aqi "pm10" 54.5 = none ∧
    calculate_epa_aqi "pm25" 12.05 = none ∧
    (calculate_epa_aqi "so2" 2000 = some 500 ↔ topHigh so2Table < 2000) :=
  ⟨C9_epa_aqi_absent_outside_bands.1 "pm25" (-1) pm25Table rfl (by norm_num),
   C9_epa_aqi_absent_outside_bands.2.1 "pm10" 54.5 pm10Table 0
      ⟨0, 54, 0, 50⟩ ⟨55, 154, 51, 100⟩ rfl rfl rfl (by norm_num) (by norm_num),
   C9_epa_aqi_absent_outside_bands.2.2.1 12.05 (by norm_num) (by norm_num),
   C9_epa_aqi_absent_outside_bands.2.2.2 "so2" 2000 so2Table rfl
      (by norm_num [so2Table, findBand_cons, findBand])⟩


lemma adjust_throttle_bounds (t : ThrottleState) (inc : Bool)
    (hmax : t.maxRequestInterval = 2) (h0 : 0 ≤ t.minInterval)
    (hb2 : t.minInterval ≤ 2) (hlo : t.minInterval ≤ t.minRequestInterval)
    (hhi : t.minRequestInterval ≤ 2) :
    t.minInterval ≤ (adjust_throttle_interval t inc).minRequestInterval ∧
    (adjust_throttle_interval t inc).minRequestInterval ≤ 2 ∧
    (adjust_throttle_interval t inc).minInterval = t.minInterval ∧
    (adjust_throttle_interval t inc).maxRequestInterval = t.maxRequestInterval := by
  have hi0 : 0 ≤ t.minRequestInterval := le_trans h0 hlo
  cases inc with
  | true =>
    refine ⟨?_, ?_, rfl, rfl⟩
    · show t.minInterval ≤ min (t.minRequestInterval * 1.5) t.maxRequestInterval
      rw [hmax]
      exact le_min (by nlinarith) hb2
    · show min (t.minRequestInterval * 1.5) t.maxRequestInterval ≤ 2
      rw [hmax]
      exact min_le_right _ _
  | false =>
    simp only [adjust_throttle_interval, Bool.false_eq_true, if_false]
    split_ifs with h
    · exact ⟨le_max_right _ _, max_le (by nlinarith) hb2, rfl, rfl⟩
    · exact ⟨hlo, hhi, rfl, rfl⟩

/-- C6: with the cap at 2.0s, a nonnegative configured baseline at most
2.0s, and the interval within [baseline, 2], every adjustment (whether the
1.5x rate-limit increase or the 0.95x success decrease) keeps the interval
within [baseline, 2]; in particular, starting at the baseline, one
rate-limit signal followed by one success signal stays within bounds. -/
theorem C6_throttle_interval_bounds :
    (∀ (t : ThrottleState) (inc : Bool),
      t.maxRequestInterval = 2 → 0 ≤ t.minInterval → t.minInterval ≤ 2 →
      t.minInterval ≤ t.minRequestInterval → t.minRequestInterval ≤ 2 →
      t.minInterval ≤ (adjust_throttle_interval t inc).minRequestInterval ∧
      (adjust_throttle_interval t inc).minRequestInterval ≤ 2) ∧
    (∀ base : ℚ, 0 ≤ base → base ≤ 2 →
      (base ≤ (adjust_throttle_interval (⟨base, base, 2⟩ : ThrottleState) true).minRequestInterval ∧
        (adjust_throttle_interval (⟨base, base, 2⟩ : ThrottleState) true).minRequestInterval ≤ 2) ∧
      (base ≤ (adjust_throttle_interval
          (adjust_throttle_interval (⟨base, base, 2⟩ : ThrottleState) true) false).minRequestInterval ∧
        (adjust_throttle_interval
          (adjust_throttle_interval (⟨base, base, 2⟩ : ThrottleState) true) false).minRequestInterval ≤ 2)) := by
  constructor
  · intro t inc hmax h0 hb2 hlo hhi
    have h := adjust_throttle_bounds t inc hmax h0 hb2 hlo hhi
    exact ⟨h.1, h.2.1⟩
  · intro base h0 hb2
    have h1 := adjust_throttle_bounds ⟨base, base, 2⟩ true rfl h0 hb2 le_rfl hb2
    have h2 := adjust_throttle_bounds (adjust_throttle_interval ⟨base, base, 2⟩ true) false
      h1.2.2.2 (by rw [h1.2.2.1]; exact h0) (by rw [h1.2.2.1]; exact hb2)
      (by rw [h1.2.2.1]; exact h1.1) h1.2.1
    refine ⟨⟨h1.1, h1.2.1⟩, ⟨?_, h2.2.1⟩⟩
    calc base = (adjust_throttle_interval ⟨base, base, 2⟩ true).minInterval := h1.2.2.1.symm
      _ ≤ _ := h2.1

/-- Witness for C6 at the default baseline 1.0s: both bounds hold after an
increase adjustment from the baseline state. -/
theorem C6_throttle_interval_bounds_witness :
    (1 : ℚ) ≤ (adjust_throttle_interval (⟨1, 1, 2⟩ : ThrottleState) true).minRequestInterval ∧
    (adjust_throttle_interval (⟨1, 1, 2⟩ : ThrottleState) true).minRequestInterval ≤ 2 :=
  C6_throttle_interval_bounds.1 ⟨1, 1, 2⟩ true rfl (by norm_num) (by norm_num)
    (by norm_num) (by norm_num)

lemma is_valid_fresh (u : UserState) (tok : String) (now : ℚ) (h : tok ≠ "") :
    is_password_reset_token_valid (generate_password_reset_token u tok now) tok now = true := by
  simp only [is_password_reset_token_valid, generate_password_reset_token]
  rw [if_neg h, if_neg (by simp), if_neg (by linarith)]

lemma is_valid_expired (u : UserState) (tok : String) (now later : ℚ)
    (h : now + 3600 < later) :
    is_password_reset_token_valid (generate_password_reset_token u tok now) tok later = false := by
  simp only [is_password_reset_token_valid, generate_password_reset_token]
  by_cases h1 : tok = ""
  · rw [if_pos h1]
  · rw [if_neg h1, if_neg (by simp), if_pos h]

/-- C7: a password-reset token is valid exactly when present (a nonempty
stored token), equal to the stored token, and not past the stored expiry
(issue time + 1 hour = 3600s); a just-generated nonempty token is valid;
the same token is invalid once strictly more than one hour has elapsed;
and a successful reset clears both token fields, so presenting the same
token again yields the invalid-token 400 response. -/
theorem C7_password_reset_token_validity :
    (∀ (u : UserState) (tok : String) (now : ℚ),
      is_password_reset_token_valid u tok now = true ↔
        (u.password_reset_token = some tok ∧ tok ≠ "" ∧
          ∃ e, u.password_reset_expires = some e ∧ now ≤ e)) ∧
    (∀ (u : UserState) (tok : String) (now : ℚ), tok ≠ "" →
      is_password_reset_token_valid (generate_password_reset_token u tok now) tok now = true) ∧
    (∀ (u : UserState) (tok : String) (now later : ℚ), now + 3600 < later →
      is_password_reset_token_valid (generate_password_reset_token u tok now) tok later = false) ∧
    (∀ (u : UserState) (tok pw : String) (now later : ℚ), tok ≠ "" →
      (resetPasswordView (generate_password_reset_token u tok now) tok pw now).1 =
        ⟨200, "Password successfully reset."⟩ ∧
      (resetPasswordView (generate_password_reset_token u tok now) tok pw now).2.password_reset_token = none ∧
      (resetPasswordView (generate_password_reset_token u tok now) tok pw now).2.password_reset_expires = none ∧
      (resetPasswordView
          (resetPasswordView (generate_password_reset_token u tok now) tok pw now).2
          tok pw later).1 =
        ⟨400, "Invalid password reset token."⟩) := by
  refine ⟨?_, is_valid_fresh, is_valid_expired, ?_⟩
  · intro u tok now
    rcases hu : u.password_reset_token with _ | stored <;>
      rcases he : u.password_reset_expires with _ | e
    · simp [is_password_reset_token_valid, hu, he]
    · simp [is_password_reset_token_valid, hu, he]
    · simp [is_password_reset_token_valid, hu, he]
    · simp only [is_password_reset_token_valid, hu, he]
      constructor
      · intro hv
        split_ifs at hv with h1 h2 h3
        push_neg at h2
        subst h2
        exact ⟨rfl, h1, e, rfl, not_lt.mp h3⟩
      · rintro ⟨h, hne, e', he', hle⟩
        have hst : stored = tok := Option.some_injective _ h
        cases he'
        subst hst
        rw [if_neg hne, if_neg (by simp), if_neg (not_lt.mpr hle)]
  · intro u tok pw now later htok
    have hvalid := is_valid_fresh u tok now htok
    have hstep : resetPasswordView (generate_password_reset_token u tok now) tok pw now =
        (⟨200, "Password successfully reset."⟩,
          clear_password_reset_token
            { generate_password_reset_token u tok now with password := pw }) := by
      simp only [resetPasswordView]
      rw [if_pos (show (generate_password_reset_token u tok now).password_reset_token =
            some tok from rfl),
        if_pos hvalid]
    rw [hstep]
    refine ⟨rfl, rfl, rfl, ?_⟩
    simp [resetPasswordView, clear_password_reset_token]

/-- Witness for C7 at a concrete token and clock: token "tok-1" issued at
time 0 is valid at time 0, invalid at time 3601, and the full reset flow
returns 200 then 400 on replay. -/
theorem C7_password_reset_token_validity_witness :
    is_password_reset_token_valid
      (generate_password_reset_token ⟨none, none, "pw0"⟩ "tok-1" 0) "tok-1" 0 = true ∧
    is_password_reset_token_valid
      (generate_password_reset_token ⟨none, none, "pw0"⟩ "tok-1" 0) "tok-1" 3601 = false ∧
    (resetPasswordView (generate_password_reset_token ⟨none, none, "pw0"⟩ "tok-1" 0)
      "tok-1" "pw1" 0).1 = ⟨200, "Password successfully reset."⟩ ∧
    (resetPasswordView
        (resetPasswordView (generate_password_reset_token ⟨none, none, "pw0"⟩ "tok-1" 0)
          "tok-1" "pw1" 0).2
        "tok-1" "pw1" 10).1 = ⟨400, "Invalid password reset token."⟩ :=
  ⟨C7_password_reset_token_validity.2.1 ⟨none, none, "pw0"⟩ "tok-1" 0 (by decide),
   C7_password_reset_token_validity.2.2.1 ⟨none, none, "pw0"⟩ "tok-1" 0 3601 (by norm_num),
   (C7_password_reset_token_validity.2.2.2 ⟨none, none, "pw0"⟩ "tok-1" "pw1" 0 10 (by decide)).1,
   (C7_password_reset_token_validity.2.2.2 ⟨none, none, "pw0"⟩ "tok-1" "pw1" 0 10 (by decide)).2.2.2⟩

/-- C8: the forgot-password endpoint is non-enumerating: the HTTP response
(status 200 and the generic detail string) is identical whether or not the
email matches an existing user, even though the internal side effects
differ between the branches. -/
theorem C8_forgot_password_non_enumerating :
    (∀ a b : Bool, (forgotPasswordView a).response = (forgotPasswordView b).response) ∧
    (forgotPasswordView true).response =
      ⟨200, "If the email exists, a password reset email has been sent."⟩ ∧
    (forgotPasswordView false).response =
      ⟨200, "If the email exists, a password reset email has been sent."⟩ ∧
    (forgotPasswordView true).emailSent ≠ (forgotPasswordView false).emailSent := by
  refine ⟨?_, rfl, rfl, by decide⟩
  intro a b
  cases a <;> cases b <;> rfl

/-- C10 (implicit): an AQI value of exactly 0 is treated as missing by the
truthiness guards of _format_current_response and
_enhance_with_aqi_calculations: the formatted category is Unknown with the
gray color, the per-pollutant category field is null, a lone pollutant
with sub-index 0 yields no dominant pollutant and a None overall AQI, the
local_epa_aqi block is null and the health recommendations are empty --
although get_aqi_category itself maps 0 to the Good band. -/
theorem C10_zero_aqi_treated_as_missing :
    format_current_aqi_info (some 0) = unknownAqiInfo ∧
    get_aqi_category (some 0) =
      ⟨"Good", "#00E400",
        "Air quality is satisfactory, and air pollution poses little or no risk."⟩ ∧
    format_current_aqi_info (some 0) ≠ get_aqi_category (some 0) ∧
    pollutantCategoryField (some 0) = none ∧
    selectDominant [("pm25", some 0)] = (none, 0) ∧
    enhanceOverallAqi [("pm25", some 0)] = none ∧
    enhanceLocalEpaAqiBlock (some 0) = none ∧
    healthRecommendations (some 0) = [] ∧
    enhanceAqiInfo (some 0) = unknownAqiInfo := by
  refine ⟨rfl, rfl, by decide, rfl, by decide, by decide, rfl, rfl, rfl⟩


lemma alookup_mem {k : String} {m : List (String × Reading)} {v : Reading}
    (h : alookupReading k m = some v) : (k, v) ∈ m := by
  induction m with
  | nil => cases h
  | cons p rest ih =>
    obtain ⟨k', v'⟩ := p
    by_cases hk : k' = k
    · subst hk
      rw [alookupReading, if_pos rfl] at h
      cases h
      exact List.mem_cons_self _ _
    · rw [alookupReading, if_neg hk] at h
      exact List.mem_cons_of_mem _ (ih h)

lemma alookup_WF {k : String} {m : List (String × Reading)} {v : Reading}
    (hwf : mapWF m) (h : alookupReading k m = some v) : cityKey v = k :=
  (hwf (k, v) (alookup_mem h)).symm

lemma addReading_WF {m : List (String × Reading)} (r : Reading) (hwf : mapWF m) :
    mapWF (addReading m r) := by
  induction m with
  | nil =>
    intro p hp
    rcases List.mem_singleton.mp hp with rfl
    rfl
  | cons q rest ih =>
    obtain ⟨k, old⟩ := q
    intro p hp
    rw [addReading] at hp
    split_ifs at hp with hk haqi
    · rcases List.mem_cons.mp hp with rfl | hp'
      · exact hk
      · exact hwf p (List.mem_cons_of_mem _ hp')
    · rcases List.mem_cons.mp hp with rfl | hp'
      · exact hwf (k, old) (List.mem_cons_self _ _)
      · exact hwf p (List.mem_cons_of_mem _ hp')
    · rcases List.mem_cons.mp hp with rfl | hp'
      · exact hwf (k, old) (List.mem_cons_self _ _)
      · exact ih (fun q hq => hwf q (List.mem_cons_of_mem _ hq)) p hp'

lemma foldl_addReading_WF (rs : List Reading) {m : List (String × Reading)}
    (hwf : mapWF m) : mapWF (rs.foldl addReading m) := by
  induction rs generalizing m with
  | nil => exact hwf
  | cons r rest ih => exact ih (addReading_WF r hwf)

lemma addReading_values {m : List (String × Reading)} {r : Reading}
    {p : String × Reading} (hp : p ∈ addReading m r) :
    p.2 = r ∨ p.2 ∈ m.map Prod.snd := by
  induction m with
  | nil =>
    rcases List.mem_singleton.mp hp with rfl
    exact Or.inl rfl
  | cons q rest ih =>
    obtain ⟨k, old⟩ := q
    rw [addReading] at hp
    split_ifs at hp with hk haqi
    · rcases List.mem_cons.mp hp with rfl | hp'
      · exact Or.inl rfl
      · exact Or.inr (List.mem_cons_of_mem _ (List.mem_map_of_mem Prod.snd hp'))
    · rcases List.mem_cons.mp hp with rfl | hp'
      · exact Or.inr (by simp)
      · exact Or.inr (List.mem_cons_of_mem _ (List.mem_map_of_mem Prod.snd hp'))
    · rcases List.mem_cons.mp hp with rfl | hp'
      · exact Or.inr (by simp)
      · rcases ih hp' with h | h
        · exact Or.inl h
        · exact Or.inr (List.mem_cons_of_mem _ h)

lemma add_self_none {m : List (String × Reading)} {r : Reading}
    (h : alookupReading (cityKey r) m = none) :
    alookupReading (cityKey r) (addReading m r) = some r := by
  induction m with
  | nil => simp [addReading, alookupReading]
  | cons q rest ih =>
    obtain ⟨k, old⟩ := q
    rw [alookupReading] at h
    by_cases hk : k = cityKey r
    · rw [if_pos hk] at h
      cases h
    · rw [if_neg hk] at h
      rw [addReading, if_neg hk, alookupReading, if_neg hk]
      exact ih h

lemma add_self_some {m : List (String × Reading)} {r old : Reading}
    (h : alookupReading (cityKey r) m = some old) :
    alookupReading (cityKey r) (addReading m r) =
      some (if old.aqi < r.aqi then r else old) := by
  induction m with
  | nil => cases h
  | cons q rest ih =>
    obtain ⟨k, v⟩ := q
    rw [alookupReading] at h
    by_cases hk : k = cityKey r
    · rw [if_pos hk] at h
      cases h
      rw [addReading, if_pos hk]
      split_ifs with haqi
      · rw [alookupReading, if_pos hk]
      · rw [alookupReading, if_pos hk]
    · rw [if_neg hk] at h
      rw [addReading, if_neg hk, alookupReading, if_neg hk]
      exact ih h

lemma add_other {m : List (String × Reading)} {r : Reading} {k : String}
    (h : k ≠ cityKey r) :
    alookupReading k (addReading m r) = alookupReading k m := by
  induction m with
  | nil =>
    simp only [addReading, alookupReading]
    rw [if_neg fun hh => h hh.symm]
  | cons q rest ih =>
    obtain ⟨k', v⟩ := q
    by_cases hk : k' = cityKey r
    · rw [addReading, if_pos hk]
      split_ifs with haqi
      · rw [alookupReading, alookupReading, if_neg, if_neg] <;> rw [hk] <;>
          exact fun hh => h hh.symm
      · rfl
    · rw [addReading, if_neg hk]
      by_cases hkk : k' = k
      · rw [alookupReading, if_pos hkk, alookupReading, if_pos hkk]
      · rw [alookupReading, if_neg hkk, alookupReading, if_neg hkk]
        exact ih

lemma foldl_add_mono :
    ∀ (rs : List Reading) (m : List (String × Reading)) (k : String) (v : Reading),
    alookupReading k m = some v →
    ∃ w, alookupReading k (rs.foldl addReading m) = some w ∧
      v.aqi ≤ w.aqi ∧ (w = v ∨ w ∈ rs) := by
  intro rs
  induction rs with
  | nil => exact fun m k v h => ⟨v, h, le_rfl, Or.inl rfl⟩
  | cons r rest ih =>
    intro m k v h
    by_cases hk : k = cityKey r
    · subst hk
      obtain ⟨w, hw, hle, hmem⟩ :=
        ih (addReading m r) (cityKey r) (if v.aqi < r.aqi then r else v)
          (add_self_some h)
      refine ⟨w, hw, le_trans ?_ hle, ?_⟩
      · split_ifs with hv
        · exact le_of_lt hv
        · exact le_rfl
      · rcases hmem with rfl | hw'
        · split_ifs with hv
          · exact Or.inr (List.mem_cons_self _ _)
          · exact Or.inl rfl
        · exact Or.inr (List.mem_cons_of_mem _ hw')
    · obtain ⟨w, hw, hle, hmem⟩ :=
        ih (addReading m r) k v (by rw [add_other hk]; exact h)
      refine ⟨w, hw, hle, ?_⟩
      rcases hmem with rfl | hw'
      · exact Or.inl rfl
      · exact Or.inr (List.mem_cons_of_mem _ hw')

lemma addReading_values_snd {m : List (String × Reading)} {r w : Reading}
    (h : w ∈ (addReading m r).map Prod.snd) :
    w = r ∨ w ∈ m.map Prod.snd := by
  obtain ⟨p, hp, rfl⟩ := List.mem_map.mp h
  exact addReading_values hp

lemma cityAqiMap_keeps_worst :
    ∀ (rs : List Reading) (m : List (String × Reading)), mapWF m →
    ∀ r ∈ rs,
    ∃ w, alookupReading (cityKey r) (rs.foldl addReading m) = some w ∧
      r.aqi ≤ w.aqi ∧ (w ∈ rs ∨ w ∈ m.map Prod.snd) ∧ cityKey w = cityKey r := by
  intro rs
  induction rs with
  | nil => intro m _ r hr; cases hr
  | cons r0 rest ih =>
    intro m hwf r hr
    have hwf' : mapWF (addReading m r0) := addReading_WF r0 hwf
    rcases List.mem_cons.mp hr with rfl | hr'
    · cases hl : alookupReading (cityKey r) m with
      | none =>
        obtain ⟨w, hw, hle, hmem⟩ :=
          foldl_add_mono rest (addReading m r) (cityKey r) r (add_self_none hl)
        refine ⟨w, hw, hle, ?_, alookup_WF (foldl_addReading_WF rest hwf') hw⟩
        rcases hmem with rfl | hw'
        · exact Or.inl (List.mem_cons_self _ _)
        · exact Or.inl (List.mem_cons_of_mem _ hw')
      | some old =>
        obtain ⟨w, hw, hle, hmem⟩ :=
          foldl_add_mono rest (addReading m r) (cityKey r)
            (if old.aqi < r.aqi then r else old) (add_self_some hl)
        have hra : r.aqi ≤ (if old.aqi < r.aqi then r else old).aqi := by
          split_ifs with hv
          · exact le_rfl
          · exact not_lt.mp hv
        refine ⟨w, hw, le_trans hra hle, ?_, alookup_WF (foldl_addReading_WF rest hwf') hw⟩
        rcases hmem with rfl | hw'
        · split_ifs with hv
          · exact Or.inl (List.mem_cons_self _ _)
          · exact Or.inr (List.mem_map_of_mem Prod.snd (alookup_mem hl))
        · exact Or.inl (List.mem_cons_of_mem _ hw')
    · obtain ⟨w, hw, hle, hmem, hkey⟩ := ih (addReading m r0) hwf' r hr'
      refine ⟨w, hw, hle, ?_, hkey⟩
      rcases hmem with hw' | hw'
      · exact Or.inl (List.mem_cons_of_mem _ hw')
      · rcases addReading_values_snd hw' with rfl | hw''
        · exact Or.inl (List.mem_cons_self _ _)
        · exact Or.inr hw''

lemma assignRanks_length : ∀ (i : ℕ) (l : List Reading),
    (assignRanks i l).length = l.length := by
  intro i l
  induction l generalizing i with
  | nil => rfl
  | cons x xs ih =>
    show (assignRanks (i + 1) xs).length + 1 = xs.length + 1
    rw [ih]

lemma sortDesc_sorted (l : List Reading) :
    List.Sorted (fun a b => b.aqi ≤ a.aqi) (sortDesc l) := by
  haveI : IsTotal Reading (fun a b => b.aqi ≤ a.aqi) := ⟨fun a b => le_total b.aqi a.aqi⟩
  haveI : IsTrans Reading (fun a b => b.aqi ≤ a.aqi) := ⟨fun _ _ _ h1 h2 => le_trans h2 h1⟩
  exact List.sorted_insertionSort _ l

lemma mem_assignRanks {p : Reading × ℕ} :
    ∀ {i : ℕ} {l : List Reading}, p ∈ assignRanks i l → p.1 ∈ l := by
  intro i l
  induction l generalizing i with
  | nil => intro h; cases h
  | cons x xs ih =>
    intro h
    rcases List.mem_cons.mp h with rfl | h'
    · exact List.mem_cons_self _ _
    · exact List.mem_cons_of_mem _ (ih h')

lemma assignRanks_pairwise {l : List Reading}
    (h : List.Pairwise (fun a b => b.aqi ≤ a.aqi) l) :
    ∀ i : ℕ, List.Pairwise (fun p q : Reading × ℕ => q.1.aqi ≤ p.1.aqi) (assignRanks i l) := by
  induction l with
  | nil => intro i; exact List.Pairwise.nil
  | cons x xs ih =>
    intro i
    obtain ⟨h1, h2⟩ := List.pairwise_cons.mp h
    exact List.pairwise_cons.mpr ⟨fun q hq => h1 q.1 (mem_assignRanks hq), ih h2 (i + 1)⟩

lemma assignRanks_map_snd :
    ∀ (i : ℕ) (l : List Reading),
    (assignRanks i l).map Prod.snd = List.range' i l.length := by
  intro i l
  induction l generalizing i with
  | nil => rfl
  | cons x xs ih =>
    show i :: (assignRanks (i + 1) xs).map Prod.snd = List.range' i (xs.length + 1)
    rw [ih]
    rfl

/-- C4 counterexample: two distinct cities sharing index 120 survive dedup
as separate entries, so the output of the ranking builder is not strictly
descending by index (the claim asserts strict descent). -/
theorem C4_rankings_counterexample :
    build_worst_aqi_rankings [⟨"A", "X", 120⟩, ⟨"B", "X", 120⟩] 30 =
      [(⟨"A", "X", 120⟩, 1), (⟨"B", "X", 120⟩, 2)] ∧
    ¬ List.Pairwise (fun p q : Reading × ℕ => q.1.aqi < p.1.aqi)
        (build_worst_aqi_rankings [⟨"A", "X", 120⟩, ⟨"B", "X", 120⟩] 30) := by
  constructor
  · rfl
  · intro hp
    have h := (List.pairwise_cons.mp hp).1 (⟨"B", "X", 120⟩, 2) (by decide)
    exact absurd h (by decide)

/-- C4 (amended): build_worst_aqi_rankings deduplicates by the
case-insensitive city_country key keeping for each city an entry with the
maximal index among its readings (two readings for one key with indices 80
and 120 yield the single entry with 120); the output is sorted in
non-increasing (not necessarily strictly decreasing) order of index; and
ranks 1..N are assigned in order. -/
theorem C4_rankings_dedup_sorted_ranked :
    (∀ (readings : List Reading) (r : Reading), r ∈ readings →
      ∃ w, alookupReading (cityKey r) (cityAqiMap readings) = some w ∧
        r.aqi ≤ w.aqi ∧ w ∈ readings ∧ cityKey w = cityKey r) ∧
    build_worst_aqi_rankings
        [⟨"Lahore", "Pakistan", 80⟩, ⟨"LAHORE", "PAKISTAN", 120⟩] 30 =
      [(⟨"LAHORE", "PAKISTAN", 120⟩, 1)] ∧
    (∀ (readings : List Reading) (n : ℕ),
      List.Pairwise (fun p q : Reading × ℕ => q.1.aqi ≤ p.1.aqi)
        (build_worst_aqi_rankings readings n)) ∧
    (∀ (readings : List Reading) (n : ℕ),
      (build_worst_aqi_rankings readings n).map Prod.snd =
        List.range' 1 (build_worst_aqi_rankings readings n).length) := by
  refine ⟨?_, rfl, ?_, ?_⟩
  · intro readings r hr
    obtain ⟨w, hw, hle, hmem, hkey⟩ :=
      cityAqiMap_keeps_worst readings [] (fun p hp => absurd hp (List.not_mem_nil p)) r hr
    refine ⟨w, hw, hle, ?_, hkey⟩
    rcases hmem with h | h
    · exact h
    · cases h
  · intro readings n
    have hs : List.Pairwise (fun a b => b.aqi ≤ a.aqi)
        ((sortDesc ((cityAqiMap readings).map Prod.snd)).take n) :=
      List.Pairwise.sublist (List.take_sublist n _)
        (sortDesc_sorted ((cityAqiMap readings).map Prod.snd))
    exact assignRanks_pairwise hs 1
  · intro readings n
    rw [build_worst_aqi_rankings, assignRanks_map_snd]
    congr 1
    exact (assignRanks_length 1 _).symm

/-- Witness for C4 at a concrete reading list: the dedup conjunct applied
to the reading with index 80 shows the surviving entry for its key holds
at least 80 (here 120). -/
theorem C4_rankings_dedup_sorted_ranked_witness :
    ∃ w, alookupReading (cityKey ⟨"Lahore", "Pakistan", 80⟩)
        (cityAqiMap [⟨"Lahore", "Pakistan", 80⟩, ⟨"LAHORE", "PAKISTAN", 120⟩]) = some w ∧
      (80 : ℤ) ≤ w.aqi ∧
      w ∈ [(⟨"Lahore", "Pakistan", 80⟩ : Reading), ⟨"LAHORE", "PAKISTAN", 120⟩] ∧
      cityKey w = cityKey ⟨"Lahore", "Pakistan", 80⟩ :=
  C4_rankings_dedup_sorted_ranked.1
    [⟨"Lahore", "Pakistan", 80⟩, ⟨"LAHORE", "PAKISTAN", 120⟩]
    ⟨"Lahore", "Pakistan", 80⟩ (by decide)

lemma batchAllResults_length (env : ℚ × ℚ → Option (Option ℤ)) (cf : ℕ → Bool) :
    ∀ (fuel i : ℕ) (locs : List (ℚ × ℚ)), locs.length ≤ fuel →
    (batchAllResults env cf fuel i locs).length = locs.length := by
  intro fuel
  induction fuel with
  | zero =>
    intro i locs h
    rw [List.length_eq_zero.mp (Nat.le_zero.mp h)]
    rfl
  | succ fuel ih =>
    intro i locs h
    cases locs with
    | nil => rfl
    | cons loc rest =>
      rw [batchAllResults, List.length_append]
      have h1 : (if cf i then List.replicate ((loc :: rest).take 20).length
            (none : Option (Option ℤ))
          else ((loc :: rest).take 20).map env).length = ((loc :: rest).take 20).length := by
        split_ifs <;> simp
      rw [h1, ih (i + 1) ((loc :: rest).drop 20)
        (by simp only [List.length_drop, List.length_cons] at *; omega)]
      simp only [List.length_take, List.length_drop, List.length_cons]
      omega

lemma batchAllResults_mem (env : ℚ × ℚ → Option (Option ℤ)) (cf : ℕ → Bool) :
    ∀ (fuel i : ℕ) (locs : List (ℚ × ℚ)) (o : Option (Option ℤ)),
    o ∈ batchAllResults env cf fuel i locs → o = none ∨ ∃ l ∈ locs, env l = o := by
  intro fuel
  induction fuel with
  | zero => intro i locs o h; cases h
  | succ fuel ih =>
    intro i locs o h
    cases locs with
    | nil => cases h
    | cons loc rest =>
      rw [batchAllResults] at h
      rcases List.mem_append.mp h with h1 | h2
      · split_ifs at h1 with hcf
        · exact Or.inl (List.eq_of_mem_replicate h1)
        · obtain ⟨l, hl, rfl⟩ := List.mem_map.mp h1
          exact Or.inr ⟨l, List.take_subset 20 _ hl, rfl⟩
      · rcases ih (i + 1) ((loc :: rest).drop 20) o h2 with h | ⟨l, hl, he⟩
        · exact Or.inl h
        · exact Or.inr ⟨l, List.drop_subset 20 _ hl, he⟩

/-- C5: fetch_batch_current_aqi returns only non-absent formatted results:
its output length never exceeds the input length, the empty input yields
the empty list, every returned result is the provider result of some input
location, and (concretely) when the first of two locations yields nothing
the single-element output holds the second location's result, so
positional alignment with the input is not preserved. -/
theorem C5_batch_fetch_compacts :
    (∀ (env : ℚ × ℚ → Option (Option ℤ)) (chunkFail : ℕ → Bool)
        (locations : List (ℚ × ℚ)),
      (fetch_batch_current_aqi env chunkFail locations).length ≤ locations.length) ∧
    (∀ (env : ℚ × ℚ → Option (Option ℤ)) (chunkFail : ℕ → Bool),
      fetch_batch_current_aqi env chunkFail [] = []) ∧
    (∀ (env : ℚ × ℚ → Option (Option ℤ)) (chunkFail : ℕ → Bool)
        (locations : List (ℚ × ℚ)) (r : Option ℤ),
      r ∈ fetch_batch_current_aqi env chunkFail locations →
      ∃ l ∈ locations, env l = some r) ∧
    fetch_batch_current_aqi exEnvMisaligned (fun _ => false)
        [((1 : ℚ), (1 : ℚ)), ((3 : ℚ), (3 : ℚ))] = [some 150] := by
  refine ⟨?_, ?_, ?_, ?_⟩
  · intro env chunkFail locations
    calc (fetch_batch_current_aqi env chunkFail locations).length
        ≤ (batchAllResults env chunkFail locations.length 0 locations).length :=
          List.length_filterMap_le _ _
      _ = locations.length := batchAllResults_length env chunkFail _ 0 locations le_rfl
  · intro env chunkFail
    rfl
  · intro env chunkFail locations r hr
    obtain ⟨o, ho, hid⟩ := List.mem_filterMap.mp hr
    rcases batchAllResults_mem env chunkFail _ 0 locations o ho with rfl | ⟨l, hl, he⟩
    · cases hid
    · cases hid
      exact ⟨l, hl, he⟩
  · norm_num [fetch_batch_current_aqi, batchAllResults, exEnvMisaligned, List.filterMap]

/-- Witness for C5 at the concrete misaligned fixture: the returned result
is the provider result of the second input location. -/
theorem C5_batch_fetch_compacts_witness :
    ∃ l ∈ [((1 : ℚ), (1 : ℚ)), ((3 : ℚ), (3 : ℚ))], exEnvMisaligned l = some (some 150) :=
  C5_batch_fetch_compacts.2.2.1 exEnvMisaligned (fun _ => false)
    [((1 : ℚ), (1 : ℚ)), ((3 : ℚ), (3 : ℚ))] (some 150)
    (by norm_num [fetch_batch_current_aqi, batchAllResults, exEnvMisaligned, List.filterMap])

lemma round4_one : round4 (1 : ℚ) = 1 := by
  norm_num [round4, pythonRound]

lemma round4_two : round4 (2 : ℚ) = 2 := by
  norm_num [round4, pythonRound]

lemma round4_three : round4 (3 : ℚ) = 3 := by
  norm_num [round4, pythonRound]

/-- C2 is violated by the code: with three grouped coordinates whose
fetched results are (nothing usable, AQI 45, AQI 150), the compacted batch
output is zipped positionally against all three coordinates, so the second
coordinate -- whose own fetched AQI is 45, below the threshold 100 --
receives the third coordinate's 150 and its user is emailed. -/
theorem C2_sweep_threshold_misalignment :
    exEnvMisaligned (groupKey exSub2) = some (some 45) ∧
    (45 : ℤ) < 100 ∧
    (check_and_send_aqi_alerts [exSub1, exSub2, exSub3] exEnvMisaligned
        (fun _ => false) (fun _ _ _ _ => true) 0 []).emails =
      [⟨2, 2, 2, 150⟩] := by
  refine ⟨?_, by norm_num, ?_⟩
  · norm_num [exEnvMisaligned, groupKey, exSub2, round4_two]
  · norm_num [check_and_send_aqi_alerts, buildLocationGroups, addToGroups, groupKey,
      exSub1, exSub2, exSub3, round4_one, round4_two, round4_three,
      fetch_batch_current_aqi, batchAllResults, List.filterMap, processGroup,
      processPair, alookupQ, exEnvMisaligned, notifMatches, List.filter, Prod.ext_iff]
    rw [if_neg (List.cons_ne_nil _ _), if_neg (List.cons_ne_nil _ _),
      if_neg (List.cons_ne_nil _ _)]

lemma processPair_ledger_mono {n : Notification} (emailOk : ℕ → ℚ → ℚ → ℤ → Bool)
    (today : ℕ) (v : ℤ) (acc : SweepResult) (s : Subscription)
    (h : n ∈ acc.ledger) : n ∈ (processPair emailOk today v acc s).ledger := by
  unfold processPair
  split_ifs <;> simp [h]

lemma foldl_step_ledger_mono (emailOk : ℕ → ℚ → ℚ → ℤ → Bool) (today : ℕ) :
    ∀ (as : List (Subscription × ℤ)) (acc : SweepResult) (n : Notification),
    n ∈ acc.ledger → n ∈ (as.foldl (sweepStep emailOk today) acc).ledger := by
  intro as
  induction as with
  | nil => exact fun acc n h => h
  | cons p rest ih =>
    intro acc n h
    exact ih _ n (processPair_ledger_mono emailOk today p.2 acc p.1 h)

lemma foldl_step_ledger_eq (emailOk : ℕ → ℚ → ℚ → ℤ → Bool) (today : ℕ)
    (L0 : List Notification) :
    ∀ (as : List (Subscription × ℤ)) (acc : SweepResult),
    acc.ledger = L0 ++ acc.emails.map (rowOf today) →
    (as.foldl (sweepStep emailOk today) acc).ledger =
      L0 ++ (as.foldl (sweepStep emailOk today) acc).emails.map (rowOf today) := by
  intro as
  induction as with
  | nil => exact fun acc h => h
  | cons p rest ih =>
    intro acc h
    apply ih
    unfold sweepStep processPair
    split_ifs with h1 h2
    · exact h
    · simp [h, rowOf]
    · exact h

lemma foldl_step_no_email (emailOk : ℕ → ℚ → ℚ → ℤ → Bool) (today : ℕ)
    (u : ℕ) (la lo : ℚ) :
    ∀ (as : List (Subscription × ℤ)) (acc : SweepResult),
    (∃ n ∈ acc.ledger, notifMatches n u la lo today = true) →
    ∀ e ∈ (as.foldl (sweepStep emailOk today) acc).emails,
    e ∈ acc.emails ∨ ¬(e.user = u ∧ e.lat = la ∧ e.lon = lo) := by
  intro as
  induction as with
  | nil => intro acc _ e he; exact Or.inl he
  | cons p rest ih =>
    intro acc hex e he
    obtain ⟨n, hn, hm⟩ := hex
    have hex' : ∃ n ∈ (sweepStep emailOk today acc p).ledger,
        notifMatches n u la lo today = true :=
      ⟨n, processPair_ledger_mono emailOk today p.2 acc p.1 hn, hm⟩
    rcases ih (sweepStep emailOk today acc p) hex' e he with he' | hne
    · unfold sweepStep processPair at he'
      split_ifs at he' with h1 h2
      · exact Or.inl he'
      · dsimp at he'
        rcases List.mem_append.mp he' with h | h
        · exact Or.inl h
        · rcases List.mem_singleton.mp h with rfl
          refine Or.inr ?_
          rintro ⟨hu, hla, hlo⟩
          dsimp at hu hla hlo
          apply h1
          refine List.any_eq_true.mpr ⟨n, hn, ?_⟩
          rw [hu, hla, hlo]
          exact hm
      · exact Or.inl he'
    · exact Or.inr hne

lemma foldl_step_outcome (emailOk : ℕ → ℚ → ℚ → ℤ → Bool) (today : ℕ) :
    ∀ (as : List (Subscription × ℤ)) (acc : SweepResult) (p : Subscription × ℤ),
    p ∈ as →
    (∃ n ∈ (as.foldl (sweepStep emailOk today) acc).ledger,
      notifMatches n p.1.userId p.1.lat p.1.lon today = true) ∨
    emailOk p.1.userId p.1.lat p.1.lon p.2 = false := by
  intro as
  induction as with
  | nil => intro acc p hp; cases hp
  | cons q rest ih =>
    intro acc p hp
    rcases List.mem_cons.mp hp with rfl | hp'
    · by_cases h1 :
        (acc.ledger.any fun n => notifMatches n p.1.userId p.1.lat p.1.lon today) = true
      · obtain ⟨n, hn, hm⟩ := List.any_eq_true.mp h1
        exact Or.inl ⟨n, foldl_step_ledger_mono emailOk today rest _ n
          (processPair_ledger_mono emailOk today p.2 acc p.1 hn), hm⟩
      · by_cases h2 : emailOk p.1.userId p.1.lat p.1.lon p.2 = true
        · have hrow : (⟨p.1.userId, p.1.lat, p.1.lon, p.2, today⟩ : Notification) ∈
              (sweepStep emailOk today acc p).ledger := by
            unfold sweepStep processPair
            rw [if_neg h1, if_pos h2]
            dsimp
            exact List.mem_append_right _ (List.mem_singleton.mpr rfl)
          refine Or.inl ⟨_, foldl_step_ledger_mono emailOk today rest _ _ hrow, ?_⟩
          simp [notifMatches]
        · exact Or.inr (by simpa using h2)
    · exact ih (sweepStep emailOk today acc q) p hp'

lemma foldl_step_stable (emailOk : ℕ → ℚ → ℚ → ℤ → Bool) (today : ℕ)
    (L1 : List Notification) :
    ∀ (as : List (Subscription × ℤ)) (F : List EmailEvent),
    (∀ p ∈ as, (∃ n ∈ L1, notifMatches n p.1.userId p.1.lat p.1.lon today = true) ∨
      emailOk p.1.userId p.1.lat p.1.lon p.2 = false) →
    (as.foldl (sweepStep emailOk today) ⟨[], L1, F⟩).emails = [] ∧
    (as.foldl (sweepStep emailOk today) ⟨[], L1, F⟩).ledger = L1 := by
  intro as
  induction as with
  | nil => intro F _; exact ⟨rfl, rfl⟩
  | cons p rest ih =>
    intro F hall
    have hrest := fun q hq => hall q (List.mem_cons_of_mem _ hq)
    by_cases h1 :
        ((⟨[], L1, F⟩ : SweepResult).ledger.any
          fun n => notifMatches n p.1.userId p.1.lat p.1.lon today) = true
    · have hstep : sweepStep emailOk today ⟨[], L1, F⟩ p = ⟨[], L1, F⟩ := by
        unfold sweepStep processPair
        rw [if_pos h1]
      rw [List.foldl_cons, hstep]
      exact ih F hrest
    · rcases hall p (List.mem_cons_self _ _) with ⟨n, hn, hm⟩ | hfail
      · exact absurd (List.any_eq_true.mpr ⟨n, hn, hm⟩) h1
      · have hstep : sweepStep emailOk today ⟨[], L1, F⟩ p =
            ⟨[], L1, F ++ [⟨p.1.userId, p.1.lat, p.1.lon, p.2⟩]⟩ := by
          unfold sweepStep processPair
          rw [if_neg h1, if_neg (by simp [hfail])]
        rw [List.foldl_cons, hstep]
        exact ih _ hrest

lemma processGroup_eq (emailOk : ℕ → ℚ → ℚ → ℤ → Bool) (today : ℕ)
    (aqiMap : List ((ℚ × ℚ) × Option ℤ)) (acc : SweepResult)
    (g : (ℚ × ℚ) × List Subscription) :
    processGroup emailOk today aqiMap acc g =
      (groupAttempts aqiMap g).foldl (sweepStep emailOk today) acc := by
  rcases h : alookupQ g.1 aqiMap with _ | o
  · simp [processGroup, groupAttempts, h]
  · rcases o with _ | v
    · simp [processGroup, groupAttempts, h]
    · by_cases hv : v < 100
      · simp [processGroup, groupAttempts, h, hv]
      · simp only [processGroup, groupAttempts, h]
        rw [if_neg hv, if_neg hv, List.foldl_map]
        rfl

lemma foldl_processGroup_eq (emailOk : ℕ → ℚ → ℚ → ℤ → Bool) (today : ℕ)
    (aqiMap : List ((ℚ × ℚ) × Option ℤ)) :
    ∀ (groups : List ((ℚ × ℚ) × List Subscription)) (acc : SweepResult),
    groups.foldl (processGroup emailOk today aqiMap) acc =
      (allAttempts aqiMap groups).foldl (sweepStep emailOk today) acc := by
  intro groups
  induction groups with
  | nil => intro acc; rfl
  | cons g rest ih =>
    intro acc
    show rest.foldl _ (processGroup emailOk today aqiMap acc g) = _
    rw [ih, processGroup_eq]
    have hsplit : allAttempts aqiMap (g :: rest) =
        groupAttempts aqiMap g ++ allAttempts aqiMap rest := by
      simp [allAttempts]
    rw [hsplit, List.foldl_append]

/-- C3: the sweep sends at most one alert per (user, saved location,
date): a pair with an existing AQINotification row for today is skipped
(no email), a row is appended exactly for each successfully sent email
(ledger afterwards = ledger before plus one row per email), and rerunning
the sweep on the same date over the resulting ledger sends no email and
adds no row; concretely, one above-threshold subscription yields exactly
one email and one row on the first run and nothing on the second. -/
theorem C3_sweep_once_per_day :
    (∀ (subs : List Subscription) (env : ℚ × ℚ → Option (Option ℤ))
        (chunkFail : ℕ → Bool) (emailOk : ℕ → ℚ → ℚ → ℤ → Bool) (today : ℕ)
        (ledger0 : List Notification),
      ((check_and_send_aqi_alerts subs env chunkFail emailOk today ledger0).ledger =
        ledger0 ++ (check_and_send_aqi_alerts subs env chunkFail emailOk today
          ledger0).emails.map (rowOf today)) ∧
      (∀ e ∈ (check_and_send_aqi_alerts subs env chunkFail emailOk today ledger0).emails,
        ¬ ∃ n ∈ ledger0, notifMatches n e.user e.lat e.lon today = true) ∧
      (check_and_send_aqi_alerts subs env chunkFail emailOk today
        (check_and_send_aqi_alerts subs env chunkFail emailOk today ledger0).ledger).emails
          = [] ∧
      (check_and_send_aqi_alerts subs env chunkFail emailOk today
        (check_and_send_aqi_alerts subs env chunkFail emailOk today ledger0).ledger).ledger
          = (check_and_send_aqi_alerts subs env chunkFail emailOk today ledger0).ledger) ∧
    (check_and_send_aqi_alerts [exSub1] exEnv155 (fun _ => false)
        (fun _ _ _ _ => true) 0 []).emails = [⟨1, 1, 1, 155⟩] ∧
    (check_and_send_aqi_alerts [exSub1] exEnv155 (fun _ => false)
        (fun _ _ _ _ => true) 0 []).ledger = [⟨1, 1, 1, 155, 0⟩] ∧
    (check_and_send_aqi_alerts [exSub1] exEnv155 (fun _ => false)
        (fun _ _ _ _ => true) 0 [⟨1, 1, 1, 155, 0⟩]).emails = [] := by
  refine ⟨?_, ?_, ?_, ?_⟩
  · intro subs env chunkFail emailOk today ledger0
    simp only [check_and_send_aqi_alerts]
    split_ifs with h1 h2 h3
    · exact ⟨by simp, fun e he => absurd he (List.not_mem_nil e), rfl, rfl⟩
    · exact ⟨by simp, fun e he => absurd he (List.not_mem_nil e), rfl, rfl⟩
    · exact ⟨by simp, fun e he => absurd he (List.not_mem_nil e), rfl, rfl⟩
    · rw [foldl_processGroup_eq, foldl_processGroup_eq]
      refine ⟨?_, ?_, ?_⟩
      · exact foldl_step_ledger_eq emailOk today ledger0 _ _ (by simp)
      · intro e he
        rintro ⟨n, hn, hm⟩
        rcases foldl_step_no_email emailOk today e.user e.lat e.lon _
            ⟨[], ledger0, []⟩ ⟨n, hn, hm⟩ e he with h | h
        · exact absurd h (List.not_mem_nil e)
        · exact h ⟨rfl, rfl, rfl⟩
      · refine foldl_step_stable emailOk today _ _ [] ?_
        intro p hp
        exact foldl_step_outcome emailOk today _ (⟨[], ledger0, []⟩ : SweepResult) p hp
  · norm_num [check_and_send_aqi_alerts, buildLocationGroups, addToGroups, groupKey,
      exSub1, round4_one, fetch_batch_current_aqi, batchAllResults, List.filterMap,
      processGroup, processPair, alookupQ, exEnv155, notifMatches, List.filter]
  · norm_num [check_and_send_aqi_alerts, buildLocationGroups, addToGroups, groupKey,
      exSub1, round4_one, fetch_batch_current_aqi, batchAllResults, List.filterMap,
      processGroup, processPair, alookupQ, exEnv155, notifMatches, List.filter]
  · norm_num [check_and_send_aqi_alerts, buildLocationGroups, addToGroups, groupKey,
      exSub1, round4_one, fetch_batch_current_aqi, batchAllResults, List.filterMap,
      processGroup, processPair, alookupQ, exEnv155, notifMatches, List.filter,
      List.any_eq_true]

/-- Witness for C3: for the concrete above-threshold subscription the
single sent email goes to a pair with no pre-existing ledger row. -/
theorem C3_sweep_once_per_day_witness :
    ¬ ∃ n ∈ ([] : List Notification), notifMatches n 1 1 1 0 = true :=
  (C3_sweep_once_per_day.1 [exSub1] exEnv155 (fun _ => false) (fun _ _ _ _ => true) 0
      []).2.1 ⟨1, 1, 1, 155⟩
    (by rw [C3_sweep_once_per_day.2.1]; exact List.mem_singleton.mpr rfl)

end AQIBackend
